import Mathlib

/-
Verification development for the `django_pgpool` connection-pool engine
(`django_pgpool/psycopg2_pool.py`, class `AbstractDatabaseConnectionPool`).

Shallow embedding choices:
* Timestamps (`time.time()`) and the configuration values `maxsize`, `maxwait`,
  `expires`, `cleanup` are modelled as `Int` (Python numbers; only ordering,
  subtraction and Python truthiness matter to the pool logic).  An optional
  configuration value (`expires`/`cleanup` may be `None`) is `Option Int`;
  Python truthiness (`None` and `0` are falsy) is `truthy`.
* A connection's identity `id(conn)` is a `Nat`.  The side tables
  `self._created_at` / `self._latest_use` (Python dicts keyed by `id(conn)`)
  are association lists with unique keys (`setKey` replaces, `eraseKey` pops).
* The gevent `LifoQueue` `self._pool` is a `List Nat` whose head is the top of
  the stack: `put_nowait` conses, `get_nowait` takes the head.
* `self._size` is an `Int` (a Python int that the code increments and
  decrements without a lower bound).
* Exception flow is explicit: fallible operations take their outcome as a
  parameter or return `Except`.
-/

namespace PgPool

/-- Timestamp side table keyed by connection identity (`id(conn)` in the code). -/
abbrev TimeMap := List (Nat × Int)

/-- Dict lookup `m.get(k)`: first entry with the key, if any. -/
def lookupTS : TimeMap → Nat → Option Int
  | [], _ => none
  | p :: rest, k => if p.1 = k then some p.2 else lookupTS rest k

/-- Dict lookup with default `m.get(k, 0)` as in `_cleanup_queue`. -/
def lookupD (m : TimeMap) (k : Nat) : Int :=
  (lookupTS m k).getD 0

/-- Dict removal `m.pop(k, None)`. -/
def eraseKey : TimeMap → Nat → TimeMap
  | [], _ => []
  | p :: rest, k => if p.1 = k then eraseKey rest k else p :: eraseKey rest k

/-- Dict assignment `m[k] = v` (replaces any previous binding). -/
def setKey (m : TimeMap) (k : Nat) (v : Int) : TimeMap :=
  (k, v) :: eraseKey m k

/-- Python truthiness of an optional number: `None` and `0` are falsy. -/
def truthy : Option Int → Bool
  | none => false
  | some x => !(x == 0)

/-- Python `a or b` on optional numbers (first truthy operand, else `b`). -/
def pyOr (a b : Option Int) : Option Int :=
  if truthy a then a else b

/-- State of one `AbstractDatabaseConnectionPool` instance: the fields set in
`__init__` (`self._maxsize`, `self._maxwait`, `self._expires`, `self._cleanup`,
`self._created_at`, `self._latest_use`, `self._pool`, `self._size`,
`self._latest_cleanup`, `self._interval_cleanup`).  The cleanup semaphore is
not represented: execution is modelled sequentially, one operation at a time. -/
@[ext]
structure PoolState where
  maxsize : Int
  maxwait : Int
  expires : Option Int
  cleanup : Option Int
  created_at : TimeMap
  latest_use : TimeMap
  pool : List Nat
  size : Int
  latest_cleanup : Int
  interval_cleanup : Int
deriving DecidableEq

/-- Embeds `__init__` (after the `maxsize` type check): `_latest_cleanup` is
`0` when `expires or cleanup` is truthy and `0xffffffffffffffff` otherwise;
`_interval_cleanup` is `min(expires or cleanup, cleanup or expires)` when one
of them is truthy and `0` otherwise. -/
def PoolState.init (maxsize maxwait : Int) (expires cleanup : Option Int) : PoolState :=
  { maxsize := maxsize
    maxwait := maxwait
    expires := expires
    cleanup := cleanup
    created_at := []
    latest_use := []
    pool := []
    size := 0
    latest_cleanup := if truthy expires || truthy cleanup then 0 else 0xffffffffffffffff
    interval_cleanup :=
      if truthy expires || truthy cleanup then
        min ((pyOr expires cleanup).getD 0) ((pyOr cleanup expires).getD 0)
      else 0 }

/-- Embeds `close_connection(item)`: decrement `self._size` and pop both
timestamp entries, then close the transport.  The `try`/`except Exception:
pass` wrapper swallows a failure of `item.close()`; since the bookkeeping
updates precede the close, the resulting pool state is the same whether the
transport close succeeds or raises, so the embedding carries no close-outcome
parameter. -/
def close_connection (s : PoolState) (c : Nat) : PoolState :=
  { s with
    size := s.size - 1
    created_at := eraseKey s.created_at c
    latest_use := eraseKey s.latest_use c }

/-- Eviction test `thr and v < thr` from `_cleanup_queue` (note the Python
truthiness of the threshold itself: a threshold equal to `0` disables the
test). -/
def evict (thr : Option Int) (v : Int) : Bool :=
  match thr with
  | none => false
  | some t => !(t == 0) && decide (v < t)

/-- Embeds the first drain loop of `_cleanup_queue`: pop each item of the old
queue; close it when its `latest_use` is below the idle threshold or (elif)
its `created_at` is below the age threshold, and otherwise push it onto the
new queue (`s.pool`, which the caller has reset to `[]`). -/
def drainLoop (cln exp : Option Int) : List Nat → PoolState → PoolState
  | [], s => s
  | c :: rest, s =>
    if evict cln (lookupD s.latest_use c) then
      drainLoop cln exp rest (close_connection s c)
    else if evict exp (lookupD s.created_at c) then
      drainLoop cln exp rest (close_connection s c)
    else
      drainLoop cln exp rest { s with pool := c :: s.pool }

/-- Idle threshold of `_cleanup_queue`: `now - self._cleanup if self._cleanup
else None`. -/
def cleanupThr (s : PoolState) (now : Int) : Option Int :=
  if truthy s.cleanup then some (now - s.cleanup.getD 0) else none

/-- Age threshold of `_cleanup_queue`: `now - self._expires if self._expires
else None`. -/
def expiresThr (s : PoolState) (now : Int) : Option Int :=
  if truthy s.expires then some (now - s.expires.getD 0) else none

/-- Embeds the tail of `_cleanup_queue`: after the drain refilled `self._pool`
in reversed order, return as-is when fewer than two entries remain, otherwise
pour the queue into a fresh one once more, reversing it back. -/
def finishSweep (s2 : PoolState) : PoolState :=
  if s2.pool.length < 2 then s2 else { s2 with pool := s2.pool.reverse }

/-- Embeds `_cleanup_queue(now)`.  The no-lock check and the re-check under
the semaphore collapse to a single check in this sequential model.  When the
sweep is due: advance `_latest_cleanup`, compute the two thresholds (active
only when the configuration value is truthy), swap the free list for an empty
one, drain the old list, and reverse the survivors back into their original
LIFO order. -/
def cleanup_queue (s : PoolState) (now : Int) : PoolState :=
  if s.latest_cleanup > now then s
  else
    finishSweep
      (drainLoop (cleanupThr s now) (expiresThr s now) s.pool
        { s with latest_cleanup := now + s.interval_cleanup, pool := [] })

/-- Errors raised by `get`: a factory failure propagated verbatim, or the
`OperationalError("Too many connections created: ...")` raised after the
timed-out wait, carrying the current `size` and `maxsize`. -/
inductive GetErr (ε : Type) where
  | factory (e : ε)
  | capacity (size maxsize : Int)
deriving DecidableEq

/-- The pool state while the factory runs: `self._size += 1` has already
happened when `create_connection()` is invoked. -/
def duringFactory (s : PoolState) : PoolState :=
  { s with size := s.size + 1 }

/-- Embeds the creation branch of `get` (free list empty, `size < maxsize`):
increment `size`, invoke the factory; on failure decrement `size` back and
re-raise; on success record `created_at` and `latest_use` as `now` and return
the new connection. -/
def createPath {ε : Type} (s : PoolState) (now : Int) (factoryResult : Except ε Nat) :
    Except (GetErr ε) Nat × PoolState :=
  let s1 := duringFactory s
  match factoryResult with
  | Except.error e => (Except.error (GetErr.factory e), { s1 with size := s1.size - 1 })
  | Except.ok conn =>
    (Except.ok conn,
      { s1 with
        created_at := setKey s1.created_at conn now
        latest_use := setKey s1.latest_use conn now })

/-- Embeds `get()`.  `factoryResult` is the outcome of `create_connection()`
(consulted only on the creation branch).  The blocking
`self._pool.get(timeout=self._maxwait)` on the at-capacity branch is
abstracted by `arrival`: `some c` means a concurrently returned connection
`c` was handed to the waiter within `maxwait` (the handing `put`'s own state
effects belong to that concurrent caller's step), `none` means the deadline
elapsed (`Empty`) and `get` raises the capacity error; either way this branch
itself mutates no pool state and makes a single attempt. -/
def get {ε : Type} (s : PoolState) (now : Int) (factoryResult : Except ε Nat)
    (arrival : Option Nat) : Except (GetErr ε) Nat × PoolState :=
  match s.pool with
  | c :: rest => (Except.ok c, { s with pool := rest })
  | [] =>
    if s.size < s.maxsize then
      createPath s now factoryResult
    else
      match arrival with
      | some c => (Except.ok c, s)
      | none => (Except.error (GetErr.capacity s.size s.maxsize), s)

/-- Embeds `put(conn)`: push onto the free list, set `latest_use` to `now`,
then opportunistically run `_cleanup_queue(now)`. -/
def put (s : PoolState) (conn : Nat) (now : Int) : PoolState :=
  cleanup_queue
    { s with pool := conn :: s.pool, latest_use := setKey s.latest_use conn now }
    now

/-- Embeds `closeall()`: pop and close every free-list connection (close
failures swallowed, and closing touches no pool bookkeeping here) and reset
`self._size` to `0`.  Note the timestamp dicts are left as they are. -/
def closeall (s : PoolState) : PoolState :=
  { s with pool := [], size := 0 }

/-- The connection object as the `connection()` context manager observes it:
its identity, the transport-owned `closed` flag, and its isolation level
(reads of `conn.isolation_level` and the pure effect of
`conn.set_isolation_level`). -/
@[ext]
structure Conn where
  connId : Nat
  closed : Bool
  isolation_level : Int
deriving DecidableEq

/-- Embeds the isolation-level prologue of `connection(isolation_level)`: when
a level is requested and equals the connection's current level, the local
variable `isolation_level` is cleared to `None`; otherwise the requested
level is set on the connection and the local variable keeps the requested
value.  Returns the connection as the body will see it and the final value of
the local variable. -/
def applyIso (c : Conn) (iso : Option Int) : Conn × Option Int :=
  match iso with
  | none => (c, none)
  | some lvl =>
    if c.isolation_level == lvl then (c, none)
    else ({ c with isolation_level := lvl }, some lvl)

/-- Embeds the `finally` clause's `conn.set_isolation_level(isolation_level)`
call: applied only when the local variable is still set, and it carries the
requested level (the code never saved the connection's previous level). -/
def restoreIso (c : Conn) (isoVar : Option Int) : Conn :=
  match isoVar with
  | none => c
  | some lvl => { c with isolation_level := lvl }

/-- Outcome of the `connection()` context manager: clean completion, the
`OperationalError("Cannot commit because connection was closed ...")` raised
on normal exit with a closed transport, or the body's own exception re-raised
(`ε` is carried verbatim). -/
inductive ScopeResult (ε : Type) where
  | ok
  | commitOnClosed (connId : Nat)
  | bodyError (e : ε)
deriving DecidableEq

/-- Observable record of one run of the `connection()` context manager: its
result, the connection object at the end (`none` when the local `conn` was
set to `None` and the object dropped), the pool state afterwards, and which
of commit / rollback / `handle_error` / `closeall` / `put` were invoked. -/
structure ScopeOutcome (ε : Type) where
  result : ScopeResult ε
  conn_after : Option Conn
  pool_after : PoolState
  committed : Bool
  rollbackAttempted : Bool
  rollbackReported : Bool
  closeallCalled : Bool
  putCalled : Bool
deriving DecidableEq

/-- Embeds the `connection(isolation_level)` context manager, given the
connection `c` that `get` returned.  `body` is the caller's work: from the
connection it receives it produces the connection's state afterwards and
`some e` when it raises `e` (`none` for a clean return).  `rollbackFails`
is the outcome of `conn.rollback()` inside `_rollback` (consulted only on the
exceptional path with an open transport); a failing rollback is reported to
`gevent.get_hub().handle_error` and makes `_rollback` return `None`.
`conn.commit()` is modelled as succeeding.  `now` is the wall-clock instant
passed to `put`'s `time.time()`.  The branch structure mirrors the
`try`/`except`/`else`/`finally` of the code. -/
def connectionScope {ε : Type} (s : PoolState) (c : Conn) (iso : Option Int)
    (body : Conn → Conn × Option ε) (rollbackFails : Bool) (now : Int) : ScopeOutcome ε :=
  let a := applyIso c iso
  let c1 := a.1
  let isoVar := a.2
  let b := body c1
  let c2 := b.1
  match b.2 with
  | some e =>
    if c2.closed then
      { result := ScopeResult.bodyError e
        conn_after := none
        pool_after := closeall s
        committed := false
        rollbackAttempted := false
        rollbackReported := false
        closeallCalled := true
        putCalled := false }
    else if rollbackFails then
      { result := ScopeResult.bodyError e
        conn_after := none
        pool_after := s
        committed := false
        rollbackAttempted := true
        rollbackReported := true
        closeallCalled := false
        putCalled := false }
    else
      let c3 := restoreIso c2 isoVar
      { result := ScopeResult.bodyError e
        conn_after := some c3
        pool_after := put s c3.connId now
        committed := false
        rollbackAttempted := true
        rollbackReported := false
        closeallCalled := false
        putCalled := true }
  | none =>
    if c2.closed then
      { result := ScopeResult.commitOnClosed c2.connId
        conn_after := some c2
        pool_after := s
        committed := false
        rollbackAttempted := false
        rollbackReported := false
        closeallCalled := false
        putCalled := false }
    else
      let c3 := restoreIso c2 isoVar
      { result := ScopeResult.ok
        conn_after := some c3
        pool_after := put s c3.connId now
        committed := true
        rollbackAttempted := false
        rollbackReported := false
        closeallCalled := false
        putCalled := true }

/-- System state for sequences of `get`/`put` on one pool: the pool itself
plus the multiset (as a list) of currently checked-out connections. -/
@[ext]
structure SysState where
  ps : PoolState
  out : List Nat
deriving DecidableEq

/-- One operation of a sequential `get`/`put` trace.  A `get` carries its
wall-clock time, the identity the factory would give a newly created
connection, and whether the factory succeeds; a `put` carries its wall-clock
time and the connection being returned. -/
inductive Op where
  | get (now : Int) (newId : Nat) (factoryOk : Bool)
  | put (now : Int) (conn : Nat)
deriving DecidableEq

/-- Sequential semantics of one operation.  A `get` at capacity times out
(no concurrent `put` can feed a strictly sequential waiter) and leaves the
state unchanged; a successful `get` moves the connection to the checked-out
list; a `put` pushes the returned connection and removes it from the
checked-out list. -/
def step (σ : SysState) (op : Op) : SysState :=
  match op with
  | Op.get now newId factoryOk =>
    match σ.ps.pool with
    | c :: rest => { ps := { σ.ps with pool := rest }, out := c :: σ.out }
    | [] =>
      if σ.ps.size < σ.ps.maxsize then
        if factoryOk then
          { ps := (createPath (ε := Unit) σ.ps now (Except.ok newId)).2, out := newId :: σ.out }
        else
          { σ with ps := (createPath (ε := Unit) σ.ps now (Except.error ())).2 }
      else σ
  | Op.put now conn => { ps := put σ.ps conn now, out := σ.out.erase conn }

/-- Run a trace of operations from a starting state. -/
def run (σ : SysState) (ops : List Op) : SysState :=
  ops.foldl step σ

/-- Validity of one operation: a `put` may only return a connection that is
currently checked out. -/
def opOk (σ : SysState) : Op → Bool
  | Op.put _ conn => σ.out.contains conn
  | Op.get _ _ _ => true

/-- Validity of a trace: every `put` returns a then-checked-out connection. -/
def validOps : SysState → List Op → Bool
  | _, [] => true
  | σ, op :: ops => opOk σ op && validOps (step σ op) ops

/-- The counting invariant of the pool: `size` equals the number of
checked-out connections plus the free-list length, and `size` is at most
`maxsize`. -/
def sizeInv (σ : SysState) : Prop :=
  σ.ps.size = (σ.out.length : Int) + (σ.ps.pool.length : Int) ∧ σ.ps.size ≤ σ.ps.maxsize

instance (σ : SysState) : Decidable (sizeInv σ) := by
  unfold sizeInv
  infer_instance

@[simp]
theorem close_connection_size (s : PoolState) (c : Nat) :
    (close_connection s c).size = s.size - 1 := rfl

@[simp]
theorem close_connection_pool (s : PoolState) (c : Nat) :
    (close_connection s c).pool = s.pool := rfl

@[simp]
theorem close_connection_maxsize (s : PoolState) (c : Nat) :
    (close_connection s c).maxsize = s.maxsize := rfl

@[simp]
theorem close_connection_created_at (s : PoolState) (c : Nat) :
    (close_connection s c).created_at = eraseKey s.created_at c := rfl

@[simp]
theorem close_connection_latest_use (s : PoolState) (c : Nat) :
    (close_connection s c).latest_use = eraseKey s.latest_use c := rfl

@[simp]
theorem close_connection_latest_cleanup (s : PoolState) (c : Nat) :
    (close_connection s c).latest_cleanup = s.latest_cleanup := rfl

@[simp]
theorem close_connection_interval_cleanup (s : PoolState) (c : Nat) :
    (close_connection s c).interval_cleanup = s.interval_cleanup := rfl

theorem drainLoop_counts (cln exp : Option Int) (l : List Nat) (s : PoolState) :
    (drainLoop cln exp l s).maxsize = s.maxsize
    ∧ (drainLoop cln exp l s).size - ((drainLoop cln exp l s).pool.length : Int)
        = s.size - (s.pool.length : Int) - (l.length : Int)
    ∧ (drainLoop cln exp l s).pool.length ≤ s.pool.length + l.length
    ∧ (drainLoop cln exp l s).size ≤ s.size := by
  induction l generalizing s with
  | nil => simp [drainLoop]
  | cons c rest ih =>
    simp only [drainLoop]
    split
    · have h := ih (close_connection s c)
      simp only [close_connection_size, close_connection_pool, close_connection_maxsize] at h
      refine ⟨h.1, ?_, ?_, ?_⟩
      · simp only [List.length_cons]; omega
      · simp only [List.length_cons]; omega
      · omega
    · split
      · have h := ih (close_connection s c)
        simp only [close_connection_size, close_connection_pool, close_connection_maxsize] at h
        refine ⟨h.1, ?_, ?_, ?_⟩
        · simp only [List.length_cons]; omega
        · simp only [List.length_cons]; omega
        · omega
      · have h := ih { s with pool := c :: s.pool }
        simp only [List.length_cons] at h
        refine ⟨h.1, ?_, ?_, ?_⟩
        · simp only [List.length_cons]; omega
        · simp only [List.length_cons]; omega
        · omega

@[simp]
theorem finishSweep_size (s2 : PoolState) : (finishSweep s2).size = s2.size := by
  unfold finishSweep; split <;> rfl

@[simp]
theorem finishSweep_maxsize (s2 : PoolState) : (finishSweep s2).maxsize = s2.maxsize := by
  unfold finishSweep; split <;> rfl

@[simp]
theorem finishSweep_created_at (s2 : PoolState) :
    (finishSweep s2).created_at = s2.created_at := by
  unfold finishSweep; split <;> rfl

@[simp]
theorem finishSweep_latest_use (s2 : PoolState) :
    (finishSweep s2).latest_use = s2.latest_use := by
  unfold finishSweep; split <;> rfl

@[simp]
theorem finishSweep_latest_cleanup (s2 : PoolState) :
    (finishSweep s2).latest_cleanup = s2.latest_cleanup := by
  unfold finishSweep; split <;> rfl

@[simp]
theorem finishSweep_pool_length (s2 : PoolState) :
    (finishSweep s2).pool.length = s2.pool.length := by
  unfold finishSweep
  split
  · rfl
  · simp

theorem cleanup_queue_counts (s : PoolState) (now : Int) :
    (cleanup_queue s now).maxsize = s.maxsize
    ∧ (cleanup_queue s now).size - ((cleanup_queue s now).pool.length : Int)
        = s.size - (s.pool.length : Int)
    ∧ (cleanup_queue s now).pool.length ≤ s.pool.length
    ∧ (cleanup_queue s now).size ≤ s.size := by
  unfold cleanup_queue
  split
  · exact ⟨rfl, rfl, le_refl _, le_refl _⟩
  · have h := drainLoop_counts (cleanupThr s now) (expiresThr s now) s.pool
      { s with latest_cleanup := now + s.interval_cleanup, pool := [] }
    simp only [List.length_nil] at h
    refine ⟨?_, ?_, ?_, ?_⟩
    · rw [finishSweep_maxsize]; exact h.1
    · rw [finishSweep_size, finishSweep_pool_length]; omega
    · rw [finishSweep_pool_length]; omega
    · rw [finishSweep_size]; omega

theorem put_counts (s : PoolState) (conn : Nat) (now : Int) :
    (put s conn now).maxsize = s.maxsize
    ∧ (put s conn now).size - ((put s conn now).pool.length : Int)
        = s.size - (s.pool.length : Int) - 1
    ∧ (put s conn now).pool.length ≤ s.pool.length + 1
    ∧ (put s conn now).size ≤ s.size := by
  unfold put
  have h := cleanup_queue_counts
    { s with pool := conn :: s.pool, latest_use := setKey s.latest_use conn now } now
  simp only [List.length_cons] at h
  refine ⟨h.1, ?_, ?_, ?_⟩ <;> omega

theorem step_preserves_sizeInv (σ : SysState) (op : Op)
    (hok : opOk σ op = true) (h : sizeInv σ) : sizeInv (step σ op) := by
  obtain ⟨h1, h2⟩ := h
  cases op with
  | get now newId factoryOk =>
    simp only [step]
    split
    next c rest heq =>
      rw [heq] at h1
      simp only [List.length_cons] at h1
      refine ⟨?_, h2⟩
      simp only [sizeInv, List.length_cons]
      omega
    next heq =>
      rw [heq] at h1
      simp only [List.length_nil] at h1
      split
      next hlt =>
        split
        next hfac =>
          simp only [sizeInv, createPath, duringFactory, List.length_cons, heq,
            List.length_nil]
          omega
        next hfac =>
          simp only [sizeInv, createPath, duringFactory, heq, List.length_nil]
          omega
      next hge =>
        refine ⟨?_, h2⟩
        rw [heq]
        simp only [List.length_nil]
        omega
  | put now conn =>
    have hmem : conn ∈ σ.out := by
      simpa [opOk] using hok
    have herase : (σ.out.erase conn).length = σ.out.length - 1 :=
      List.length_erase_of_mem hmem
    have hpos : 0 < σ.out.length := List.length_pos.mpr (List.ne_nil_of_mem hmem)
    obtain ⟨hm, hsz, hlen, hle⟩ := put_counts σ.ps conn now
    refine ⟨?_, ?_⟩
    · show (put σ.ps conn now).size
        = ((σ.out.erase conn).length : Int) + ((put σ.ps conn now).pool.length : Int)
      rw [herase]
      omega
    · show (put σ.ps conn now).size ≤ (put σ.ps conn now).maxsize
      omega

theorem run_preserves_sizeInv (ops : List Op) (σ : SysState)
    (hv : validOps σ ops = true) (h : sizeInv σ) : sizeInv (run σ ops) := by
  induction ops generalizing σ with
  | nil => simpa [run] using h
  | cons op rest ih =>
    simp only [validOps, Bool.and_eq_true] at hv
    have hstep := step_preserves_sizeInv σ op hv.1 h
    simpa [run] using ih (step σ op) hv.2 hstep

/-- C1: over any valid sequence of `get`/`put` operations (no `closeall`)
starting from a state satisfying the counting invariant, the invariant is
preserved: `size` equals checked-out count plus free-list length and stays at
most `maxsize`; in particular the number of checked-out connections plus the
length of the free list never exceeds `maxsize`.  (`get` only increments
`size` under the `size < maxsize` guard, and every other path only moves or
removes connections.) -/
theorem C1_capacity_invariant (σ : SysState) (ops : List Op)
    (hv : validOps σ ops = true) (h : sizeInv σ) :
    sizeInv (run σ ops)
    ∧ ((run σ ops).out.length : Int) + ((run σ ops).ps.pool.length : Int)
        ≤ (run σ ops).ps.maxsize := by
  have hinv := run_preserves_sizeInv ops σ hv h
  exact ⟨hinv, by obtain ⟨ha, hb⟩ := hinv; omega⟩

/-- Witness for C1 at a concrete trace: a pool of capacity 2, a trace that
creates two connections, fails a third creation attempt, times out a fourth
`get` at capacity, returns a connection and reuses it. -/
theorem C1_capacity_invariant_witness :
    (validOps { ps := PoolState.init 2 1 none none, out := [] }
        [Op.get 10 1 true, Op.get 11 2 true, Op.get 12 3 false, Op.get 13 4 true,
         Op.put 14 1, Op.get 15 5 true] = true
      ∧ sizeInv { ps := PoolState.init 2 1 none none, out := [] })
    ∧ (sizeInv (run { ps := PoolState.init 2 1 none none, out := [] }
          [Op.get 10 1 true, Op.get 11 2 true, Op.get 12 3 false, Op.get 13 4 true,
           Op.put 14 1, Op.get 15 5 true])
      ∧ ((run { ps := PoolState.init 2 1 none none, out := [] }
            [Op.get 10 1 true, Op.get 11 2 true, Op.get 12 3 false, Op.get 13 4 true,
             Op.put 14 1, Op.get 15 5 true]).out.length : Int)
          + ((run { ps := PoolState.init 2 1 none none, out := [] }
              [Op.get 10 1 true, Op.get 11 2 true, Op.get 12 3 false, Op.get 13 4 true,
               Op.put 14 1, Op.get 15 5 true]).ps.pool.length : Int)
          ≤ (run { ps := PoolState.init 2 1 none none, out := [] }
              [Op.get 10 1 true, Op.get 11 2 true, Op.get 12 3 false, Op.get 13 4 true,
               Op.put 14 1, Op.get 15 5 true]).ps.maxsize) :=
  ⟨⟨by decide, by decide⟩,
    C1_capacity_invariant { ps := PoolState.init 2 1 none none, out := [] }
      [Op.get 10 1 true, Op.get 11 2 true, Op.get 12 3 false, Op.get 13 4 true,
       Op.put 14 1, Op.get 15 5 true] (by decide) (by decide)⟩

theorem lookupTS_setKey_self (m : TimeMap) (k : Nat) (v : Int) :
    lookupTS (setKey m k v) k = some v := by
  simp [lookupTS, setKey]

theorem lookupTS_eraseKey_self (m : TimeMap) (k : Nat) :
    lookupTS (eraseKey m k) k = none := by
  induction m with
  | nil => rfl
  | cons p rest ih =>
    by_cases hp : p.1 = k
    · simpa [eraseKey, hp] using ih
    · simpa [eraseKey, lookupTS, hp] using ih

theorem lookupTS_eraseKey_ne (m : TimeMap) (k c : Nat) (h : ¬ c = k) :
    lookupTS (eraseKey m k) c = lookupTS m c := by
  have h' : ¬ k = c := fun hh => h hh.symm
  induction m with
  | nil => rfl
  | cons p rest ih =>
    by_cases hp : p.1 = k
    · simpa [eraseKey, lookupTS, hp, h'] using ih
    · by_cases hpc : p.1 = c
      · simp [eraseKey, lookupTS, hp, hpc, h]
      · simpa [eraseKey, lookupTS, hp, hpc] using ih

theorem get_create_ok {ε : Type} (s : PoolState) (now : Int) (c : Nat)
    (arrival : Option Nat) (hEmpty : s.pool = []) (hRoom : s.size < s.maxsize) :
    get (ε := ε) s now (Except.ok c) arrival
      = (Except.ok c,
          { s with
            size := s.size + 1
            created_at := setKey s.created_at c now
            latest_use := setKey s.latest_use c now }) := by
  simp only [get, hEmpty, if_pos hRoom, createPath, duringFactory]

theorem get_create_error {ε : Type} (s : PoolState) (now : Int) (e : ε)
    (arrival : Option Nat) (hEmpty : s.pool = []) (hRoom : s.size < s.maxsize) :
    get (ε := ε) s now (Except.error e) arrival
      = (Except.error (GetErr.factory e), s) := by
  simp only [get, hEmpty, if_pos hRoom, createPath, duringFactory]
  have hsz : s.size + 1 - 1 = s.size := by omega
  simp only [hsz]
  rw [← hEmpty]

/-- C3: on `get`'s creation path (free list empty, `size < maxsize`), the
factory is invoked on a state whose `size` is already incremented; if the
factory fails, the final state equals the original state (the increment is
rolled back) and the factory's error propagates unchanged; on success the new
connection's `created_at` and `latest_use` are both `now`, `size` is
incremented, and the connection is returned. -/
theorem C3_creation_path {ε : Type} (s : PoolState) (now : Int)
    (fr : Except ε Nat) (arrival : Option Nat)
    (hEmpty : s.pool = []) (hRoom : s.size < s.maxsize) :
    (duringFactory s).size = s.size + 1
    ∧ (∀ e : ε, fr = Except.error e →
        get s now fr arrival = (Except.error (GetErr.factory e), s))
    ∧ (∀ c : Nat, fr = Except.ok c →
        (get s now fr arrival).1 = Except.ok c
        ∧ (get s now fr arrival).2.size = s.size + 1
        ∧ lookupTS (get s now fr arrival).2.created_at c = some now
        ∧ lookupTS (get s now fr arrival).2.latest_use c = some now
        ∧ (get s now fr arrival).2.pool = s.pool) := by
  refine ⟨rfl, ?_, ?_⟩
  · rintro e rfl
    exact get_create_error s now e arrival hEmpty hRoom
  · rintro c rfl
    rw [get_create_ok s now c arrival hEmpty hRoom]
    exact ⟨rfl, rfl, lookupTS_setKey_self _ _ _, lookupTS_setKey_self _ _ _, rfl⟩

/-- Witness for C3 on a fresh pool of capacity 2: both a failing and a
succeeding factory outcome, checked at concrete values. -/
theorem C3_creation_path_witness :
    ((PoolState.init 2 1 none none).pool = []
      ∧ (PoolState.init 2 1 none none).size < (PoolState.init 2 1 none none).maxsize)
    ∧ get (PoolState.init 2 1 none none) 5 (Except.error 7 : Except Nat Nat) none
        = (Except.error (GetErr.factory 7), PoolState.init 2 1 none none)
    ∧ (get (PoolState.init 2 1 none none) 5 (Except.ok 9 : Except Nat Nat) none).1
        = Except.ok 9
    ∧ lookupTS (get (PoolState.init 2 1 none none) 5 (Except.ok 9 : Except Nat Nat) none).2.created_at 9
        = some 5 :=
  ⟨⟨by decide, by decide⟩,
    (C3_creation_path (PoolState.init 2 1 none none) 5 (Except.error 7) none
      (by decide) (by decide)).2.1 7 rfl,
    ((C3_creation_path (PoolState.init 2 1 none none) 5 (Except.ok 9) none
      (by decide) (by decide)).2.2 9 rfl).1,
    ((C3_creation_path (PoolState.init 2 1 none none) 5 (Except.ok 9) none
      (by decide) (by decide)).2.2 9 rfl).2.2.1⟩

/-- C4: when the free list is empty and `size ≥ maxsize`, `get` waits on the
free list; a connection handed over within `maxwait` is returned as-is, and
when the deadline elapses `get` raises the capacity error carrying the
current `size` and `maxsize`; in both cases it performs a single attempt and
leaves the pool state exactly unchanged (the timed-out attempt consumes no
capacity slot). -/
theorem C4_capacity_wait {ε : Type} (s : PoolState) (now : Int) (fr : Except ε Nat)
    (hEmpty : s.pool = []) (hFull : ¬ s.size < s.maxsize) :
    (∀ c : Nat, get s now fr (some c) = (Except.ok c, s))
    ∧ get s now fr none = (Except.error (GetErr.capacity s.size s.maxsize), s) := by
  constructor
  · intro c
    simp [get, hEmpty, hFull]
  · simp [get, hEmpty, hFull]

/-- Witness for C4 on a full pool of capacity 1 holding one checked-out
connection. -/
theorem C4_capacity_wait_witness :
    (({ PoolState.init 1 1 none none with size := 1 } : PoolState).pool = []
      ∧ ¬ ({ PoolState.init 1 1 none none with size := 1 } : PoolState).size
          < ({ PoolState.init 1 1 none none with size := 1 } : PoolState).maxsize)
    ∧ get ({ PoolState.init 1 1 none none with size := 1 } : PoolState) 5
        (Except.ok 9 : Except Nat Nat) (some 4)
        = (Except.ok 4, { PoolState.init 1 1 none none with size := 1 })
    ∧ get ({ PoolState.init 1 1 none none with size := 1 } : PoolState) 5
        (Except.ok 9 : Except Nat Nat) none
        = (Except.error (GetErr.capacity 1 1), { PoolState.init 1 1 none none with size := 1 }) :=
  ⟨⟨by decide, by decide⟩,
    (C4_capacity_wait ({ PoolState.init 1 1 none none with size := 1 }) 5 (Except.ok 9)
      (by decide) (by decide)).1 4,
    (C4_capacity_wait ({ PoolState.init 1 1 none none with size := 1 }) 5 (Except.ok 9)
      (by decide) (by decide)).2⟩

theorem put_no_sweep (s : PoolState) (conn : Nat) (now : Int)
    (h : now < s.latest_cleanup) :
    put s conn now
      = { s with pool := conn :: s.pool, latest_use := setKey s.latest_use conn now } := by
  unfold put cleanup_queue
  exact if_pos h

/-- C2 (amended): if connection `a` is returned via `put` and then `b` is
returned via `put` with no intervening `get`, and no cleanup sweep is due at
either `put` (both put times precede the next-scheduled-sweep time, so the
opportunistic sweep cannot evict either connection), then the next `get`
yields `b` and the `get` after that yields `a`. -/
theorem C2_lifo_amended {ε : Type} (s : PoolState) (a b : Nat) (t1 t2 now1 now2 : Int)
    (fr1 fr2 : Except ε Nat) (ar1 ar2 : Option Nat)
    (h1 : t1 < s.latest_cleanup) (h2 : t2 < s.latest_cleanup) :
    (get (put (put s a t1) b t2) now1 fr1 ar1).1 = Except.ok b
    ∧ (get (get (put (put s a t1) b t2) now1 fr1 ar1).2 now2 fr2 ar2).1 = Except.ok a := by
  rw [put_no_sweep s a t1 h1]
  rw [put_no_sweep { s with pool := a :: s.pool, latest_use := setKey s.latest_use a t1 }
    b t2 h2]
  exact ⟨rfl, rfl⟩

/-- Witness for the amended C2: a pool whose next sweep is far in the future;
returning 1 then 2 makes the next two `get` calls yield 2 then 1. -/
theorem C2_lifo_amended_witness :
    (30 < ({ PoolState.init 5 1 (some 1000) none with
        pool := [3], size := 3, latest_cleanup := 100 } : PoolState).latest_cleanup
      ∧ 40 < ({ PoolState.init 5 1 (some 1000) none with
        pool := [3], size := 3, latest_cleanup := 100 } : PoolState).latest_cleanup)
    ∧ (get (put (put ({ PoolState.init 5 1 (some 1000) none with
          pool := [3], size := 3, latest_cleanup := 100 } : PoolState) 1 30) 2 40)
        50 (Except.ok 9 : Except Nat Nat) none).1 = Except.ok 2
    ∧ (get (get (put (put ({ PoolState.init 5 1 (some 1000) none with
          pool := [3], size := 3, latest_cleanup := 100 } : PoolState) 1 30) 2 40)
        50 (Except.ok 9 : Except Nat Nat) none).2 55 (Except.ok 9 : Except Nat Nat) none).1
        = Except.ok 1 :=
  ⟨⟨by decide, by decide⟩,
    (C2_lifo_amended ({ PoolState.init 5 1 (some 1000) none with
        pool := [3], size := 3, latest_cleanup := 100 }) 1 2 30 40 50 55
      (Except.ok 9) (Except.ok 9) none none (by decide) (by decide)).1,
    (C2_lifo_amended ({ PoolState.init 5 1 (some 1000) none with
        pool := [3], size := 3, latest_cleanup := 100 }) 1 2 30 40 50 55
      (Except.ok 9) (Except.ok 9) none none (by decide) (by decide)).2⟩

/-- A pool built with `maxsize=10, maxwait=1, expires=10`, in which
connections 1 and 2 were created at time 0 and are both checked out, and no
sweep has run yet. -/
def lifoPool : PoolState :=
  { maxsize := 10
    maxwait := 1
    expires := some 10
    cleanup := none
    created_at := [(1, 0), (2, 0)]
    latest_use := [(1, 0), (2, 0)]
    pool := []
    size := 2
    latest_cleanup := 0
    interval_cleanup := 10 }

/-- C2 counterexample (the claim as stated, quantified over every pool state,
is false): in `lifoPool` at time 100 connection 1 is already past its
`expires` age, so the sweep triggered by `put(1)` evicts it immediately;
after `put(1); put(2)` the free list holds only `[2]`, the next `get` yields
2, but the `get` after that cannot yield 1 — it takes the creation path and
returns whatever fresh connection the factory makes (here 7). -/
theorem C2_lifo_counterexample :
    (put (put lifoPool 1 100) 2 100).pool = [2]
    ∧ (get (put (put lifoPool 1 100) 2 100) 100 (Except.ok 7 : Except Unit Nat) none).1
        = Except.ok 2
    ∧ (get (get (put (put lifoPool 1 100) 2 100) 100 (Except.ok 7 : Except Unit Nat) none).2
        100 (Except.ok 7 : Except Unit Nat) none).1 = Except.ok 7
    ∧ ¬ (get (get (put (put lifoPool 1 100) 2 100) 100 (Except.ok 7 : Except Unit Nat) none).2
        100 (Except.ok 7 : Except Unit Nat) none).1 = Except.ok 1 := by
  refine ⟨by decide, rfl, rfl, ?_⟩
  intro h
  exact absurd (Except.ok.inj h) (by decide)

/-- Survival test of one drain step, over explicit timestamp tables: the item
survives when neither the idle test nor (elif) the age test fires. -/
def keepB (cln exp : Option Int) (lu ca : TimeMap) (c : Nat) : Bool :=
  !(evict cln (lookupD lu c)) && !(evict exp (lookupD ca c))

/-- Survival test of `_cleanup_queue` at time `now` in state `s`: the entry
stays in the free list iff its `latest_use` is not below the idle threshold
and its `created_at` is not below the age threshold. -/
def keepConn (s : PoolState) (now : Int) (c : Nat) : Bool :=
  keepB (cleanupThr s now) (expiresThr s now) s.latest_use s.created_at c

theorem lookupD_eraseKey_ne (m : TimeMap) (k c : Nat) (h : ¬ c = k) :
    lookupD (eraseKey m k) c = lookupD m c := by
  unfold lookupD
  rw [lookupTS_eraseKey_ne m k c h]

theorem keepB_eraseKey (cln exp : Option Int) (lu ca : TimeMap) (k c : Nat)
    (h : ¬ c = k) :
    keepB cln exp (eraseKey lu k) (eraseKey ca k) c = keepB cln exp lu ca c := by
  unfold keepB
  rw [lookupD_eraseKey_ne lu k c h, lookupD_eraseKey_ne ca k c h]

theorem drainLoop_filter (cln exp : Option Int) (l : List Nat) (s : PoolState)
    (hN : l.Nodup) :
    (drainLoop cln exp l s).pool
        = (l.filter (keepB cln exp s.latest_use s.created_at)).reverse ++ s.pool
    ∧ (drainLoop cln exp l s).size
        = s.size - ((l.filter fun c => !(keepB cln exp s.latest_use s.created_at c)).length : Int)
    ∧ (∀ c, c ∈ l → keepB cln exp s.latest_use s.created_at c = false →
        lookupTS (drainLoop cln exp l s).latest_use c = none
        ∧ lookupTS (drainLoop cln exp l s).created_at c = none)
    ∧ (∀ c, c ∉ l →
        lookupTS (drainLoop cln exp l s).latest_use c = lookupTS s.latest_use c
        ∧ lookupTS (drainLoop cln exp l s).created_at c = lookupTS s.created_at c)
    ∧ (drainLoop cln exp l s).latest_cleanup = s.latest_cleanup := by
  induction l generalizing s with
  | nil =>
    simp [drainLoop]
  | cons c rest ih =>
    have hcr : c ∉ rest := (List.nodup_cons.mp hN).1
    have hNr : rest.Nodup := (List.nodup_cons.mp hN).2
    have hcongr : ∀ c', c' ∈ rest →
        keepB cln exp (eraseKey s.latest_use c) (eraseKey s.created_at c) c'
          = keepB cln exp s.latest_use s.created_at c' := by
      intro c' hc'
      have : ¬ c' = c := fun hh => hcr (hh ▸ hc')
      exact keepB_eraseKey cln exp s.latest_use s.created_at c c' this
    simp only [drainLoop]
    by_cases hev1 : evict cln (lookupD s.latest_use c) = true
    · rw [if_pos hev1]
      have hkeep : keepB cln exp s.latest_use s.created_at c = false := by
        simp [keepB, hev1]
      obtain ⟨hpool, hsize, hmem, hnotm, hlc⟩ := ih (close_connection s c) hNr
      simp only [close_connection_pool, close_connection_size, close_connection_latest_use,
        close_connection_created_at, close_connection_latest_cleanup] at hpool hsize hmem hnotm hlc
      have hfilt : rest.filter (keepB cln exp (eraseKey s.latest_use c) (eraseKey s.created_at c))
          = rest.filter (keepB cln exp s.latest_use s.created_at) :=
        List.filter_congr hcongr
      have hfiltn : rest.filter (fun c' => !(keepB cln exp (eraseKey s.latest_use c) (eraseKey s.created_at c) c'))
          = rest.filter (fun c' => !(keepB cln exp s.latest_use s.created_at c')) :=
        List.filter_congr (fun c' hc' => by rw [hcongr c' hc'])
      refine ⟨?_, ?_, ?_, ?_, hlc⟩
      · rw [hpool, hfilt, List.filter_cons_of_neg (by simp [hkeep])]
      · rw [hsize, hfiltn, List.filter_cons_of_pos (by simp [hkeep]), List.length_cons]
        push_cast
        omega
      · intro c' hc' hk'
        rcases List.mem_cons.mp hc' with hceq | hcrest
        · subst hceq
          obtain ⟨hl1, hl2⟩ := hnotm c' hcr
          rw [hl1, hl2, lookupTS_eraseKey_self, lookupTS_eraseKey_self]
          exact ⟨rfl, rfl⟩
        · exact hmem c' hcrest (by rw [hcongr c' hcrest]; exact hk')
      · intro c' hc'
        have hc'c : ¬ c' = c := fun hh => hc' (hh ▸ List.mem_cons_self c rest)
        have hc'rest : c' ∉ rest := fun hh => hc' (List.mem_cons_of_mem c hh)
        obtain ⟨hl1, hl2⟩ := hnotm c' hc'rest
        rw [hl1, hl2, lookupTS_eraseKey_ne _ _ _ hc'c, lookupTS_eraseKey_ne _ _ _ hc'c]
        exact ⟨rfl, rfl⟩
    · rw [if_neg hev1]
      by_cases hev2 : evict exp (lookupD s.created_at c) = true
      · rw [if_pos hev2]
        have hkeep : keepB cln exp s.latest_use s.created_at c = false := by
          simp [keepB, hev2]
        obtain ⟨hpool, hsize, hmem, hnotm, hlc⟩ := ih (close_connection s c) hNr
        simp only [close_connection_pool, close_connection_size, close_connection_latest_use,
          close_connection_created_at, close_connection_latest_cleanup] at hpool hsize hmem hnotm hlc
        have hfilt : rest.filter (keepB cln exp (eraseKey s.latest_use c) (eraseKey s.created_at c))
            = rest.filter (keepB cln exp s.latest_use s.created_at) :=
          List.filter_congr hcongr
        have hfiltn : rest.filter (fun c' => !(keepB cln exp (eraseKey s.latest_use c) (eraseKey s.created_at c) c'))
            = rest.filter (fun c' => !(keepB cln exp s.latest_use s.created_at c')) :=
          List.filter_congr (fun c' hc' => by rw [hcongr c' hc'])
        refine ⟨?_, ?_, ?_, ?_, hlc⟩
        · rw [hpool, hfilt, List.filter_cons_of_neg (by simp [hkeep])]
        · rw [hsize, hfiltn, List.filter_cons_of_pos (by simp [hkeep]), List.length_cons]
          push_cast
          omega
        · intro c' hc' hk'
          rcases List.mem_cons.mp hc' with hceq | hcrest
          · subst hceq
            obtain ⟨hl1, hl2⟩ := hnotm c' hcr
            rw [hl1, hl2, lookupTS_eraseKey_self, lookupTS_eraseKey_self]
            exact ⟨rfl, rfl⟩
          · exact hmem c' hcrest (by rw [hcongr c' hcrest]; exact hk')
        · intro c' hc'
          have hc'c : ¬ c' = c := fun hh => hc' (hh ▸ List.mem_cons_self c rest)
          have hc'rest : c' ∉ rest := fun hh => hc' (List.mem_cons_of_mem c hh)
          obtain ⟨hl1, hl2⟩ := hnotm c' hc'rest
          rw [hl1, hl2, lookupTS_eraseKey_ne _ _ _ hc'c, lookupTS_eraseKey_ne _ _ _ hc'c]
          exact ⟨rfl, rfl⟩
      · rw [if_neg hev2]
        have hkeep : keepB cln exp s.latest_use s.created_at c = true := by
          simp [keepB, hev1, hev2]
        obtain ⟨hpool, hsize, hmem, hnotm, hlc⟩ := ih { s with pool := c :: s.pool } hNr
        refine ⟨?_, ?_, ?_, ?_, hlc⟩
        · rw [hpool, List.filter_cons_of_pos (by simp [hkeep]), List.reverse_cons,
            List.append_assoc]
          rfl
        · rw [hsize, List.filter_cons_of_neg (by simp [hkeep])]
        · intro c' hc' hk'
          rcases List.mem_cons.mp hc' with hceq | hcrest
          · subst hceq
            rw [hkeep] at hk'
            cases hk'
          · exact hmem c' hcrest hk'
        · intro c' hc'
          have hc'rest : c' ∉ rest := fun hh => hc' (List.mem_cons_of_mem c hh)
          exact hnotm c' hc'rest

theorem reverse_short (l : List Nat) (h : l.length < 2) : l.reverse = l := by
  cases l with
  | nil => rfl
  | cons a t =>
    cases t with
    | nil => rfl
    | cons b u =>
      simp only [List.length_cons] at h
      omega

theorem finishSweep_pool_eq (s2 : PoolState) (F : List Nat) (h : s2.pool = F.reverse) :
    (finishSweep s2).pool = F := by
  unfold finishSweep
  split
  next hlen =>
    rw [h] at hlen ⊢
    rw [List.length_reverse] at hlen
    exact reverse_short F hlen
  next hlen =>
    simp [h]

theorem cleanup_queue_due (s : PoolState) (now : Int)
    (hDue : s.latest_cleanup ≤ now) (hN : s.pool.Nodup) :
    (cleanup_queue s now).latest_cleanup = now + s.interval_cleanup
    ∧ (cleanup_queue s now).pool = s.pool.filter (keepConn s now)
    ∧ (cleanup_queue s now).size
        = s.size - ((s.pool.filter fun c => !(keepConn s now c)).length : Int)
    ∧ (∀ c, c ∈ s.pool → keepConn s now c = false →
        lookupTS (cleanup_queue s now).latest_use c = none
        ∧ lookupTS (cleanup_queue s now).created_at c = none)
    ∧ (∀ c, c ∉ s.pool →
        lookupTS (cleanup_queue s now).latest_use c = lookupTS s.latest_use c
        ∧ lookupTS (cleanup_queue s now).created_at c = lookupTS s.created_at c) := by
  have hnd : ¬ s.latest_cleanup > now := by omega
  unfold cleanup_queue
  rw [if_neg hnd]
  obtain ⟨hpool, hsize, hmem, hnotm, hlc⟩ :=
    drainLoop_filter (cleanupThr s now) (expiresThr s now) s.pool
      { s with latest_cleanup := now + s.interval_cleanup, pool := [] } hN
  refine ⟨?_, ?_, ?_, ?_, ?_⟩
  · rw [finishSweep_latest_cleanup, hlc]
  · exact finishSweep_pool_eq _ _ (by simpa using hpool)
  · rw [finishSweep_size]
    exact (by simpa using hsize)
  · intro c hc hk
    rw [finishSweep_latest_use, finishSweep_created_at]
    exact hmem c hc hk
  · intro c hc
    rw [finishSweep_latest_use, finishSweep_created_at]
    exact hnotm c hc

/-- C5: with a duplicate-free free list, a due sweep (`now` at or past the
next-scheduled-sweep time) sets the next sweep time to `now` plus the sweep
interval, leaves exactly the surviving entries (those passing both the idle
and the age test against the pre-sweep tables) in the free list in their
original LIFO order, decrements `size` once per evicted entry, purges the
evicted entries' timestamp bookkeeping, and leaves the bookkeeping of every
connection outside the free list (in particular every checked-out
connection) untouched; a sweep that is not due changes nothing. -/
theorem C5_cleanup_sweep (s : PoolState) (now : Int) (hN : s.pool.Nodup) :
    (now < s.latest_cleanup → cleanup_queue s now = s)
    ∧ (s.latest_cleanup ≤ now →
        (cleanup_queue s now).latest_cleanup = now + s.interval_cleanup
        ∧ (cleanup_queue s now).pool = s.pool.filter (keepConn s now)
        ∧ (cleanup_queue s now).size
            = s.size - ((s.pool.filter fun c => !(keepConn s now c)).length : Int)
        ∧ (∀ c, c ∈ s.pool → keepConn s now c = false →
            lookupTS (cleanup_queue s now).latest_use c = none
            ∧ lookupTS (cleanup_queue s now).created_at c = none)
        ∧ (∀ c, c ∉ s.pool →
            lookupTS (cleanup_queue s now).latest_use c = lookupTS s.latest_use c
            ∧ lookupTS (cleanup_queue s now).created_at c = lookupTS s.created_at c)) := by
  constructor
  · intro h
    unfold cleanup_queue
    exact if_pos h
  · intro h
    exact cleanup_queue_due s now h hN

/-- A pool with `expires=50, cleanup=20` whose free list holds connections
2, 3, 1 (2 on top) with assorted timestamps, due for a sweep at time 100:
connection 3 is idle past the threshold, connection 1 is older than
`expires`, connection 2 survives. -/
def sweepPool : PoolState :=
  { maxsize := 5
    maxwait := 1
    expires := some 50
    cleanup := some 20
    created_at := [(1, 10), (2, 90), (3, 60)]
    latest_use := [(1, 95), (2, 92), (3, 70)]
    pool := [2, 3, 1]
    size := 4
    latest_cleanup := 100
    interval_cleanup := 20 }

/-- Witness for C5 on `sweepPool` at time 100. -/
theorem C5_cleanup_sweep_witness :
    (sweepPool.pool.Nodup ∧ sweepPool.latest_cleanup ≤ 100)
    ∧ (cleanup_queue sweepPool 100).latest_cleanup = 100 + sweepPool.interval_cleanup
    ∧ (cleanup_queue sweepPool 100).pool = sweepPool.pool.filter (keepConn sweepPool 100)
    ∧ (cleanup_queue sweepPool 100).size
        = sweepPool.size
          - ((sweepPool.pool.filter fun c => !(keepConn sweepPool 100 c)).length : Int) :=
  ⟨⟨by decide, by decide⟩,
    ((C5_cleanup_sweep sweepPool 100 (by decide)).2 (by decide)).1,
    ((C5_cleanup_sweep sweepPool 100 (by decide)).2 (by decide)).2.1,
    ((C5_cleanup_sweep sweepPool 100 (by decide)).2 (by decide)).2.2.1⟩

theorem connectionScope_clean_open {ε : Type} (s : PoolState) (c : Conn) (iso : Option Int)
    (body : Conn → Conn × Option ε) (rbF : Bool) (now : Int)
    (hClean : (body (applyIso c iso).1).2 = none)
    (hOpen : (body (applyIso c iso).1).1.closed = false) :
    connectionScope s c iso body rbF now
      = { result := ScopeResult.ok
          conn_after := some (restoreIso (body (applyIso c iso).1).1 (applyIso c iso).2)
          pool_after := put s (restoreIso (body (applyIso c iso).1).1 (applyIso c iso).2).connId now
          committed := true
          rollbackAttempted := false
          rollbackReported := false
          closeallCalled := false
          putCalled := true } := by
  simp only [connectionScope, hClean, hOpen]
  simp

theorem connectionScope_clean_closed {ε : Type} (s : PoolState) (c : Conn) (iso : Option Int)
    (body : Conn → Conn × Option ε) (rbF : Bool) (now : Int)
    (hClean : (body (applyIso c iso).1).2 = none)
    (hClosed : (body (applyIso c iso).1).1.closed = true) :
    connectionScope s c iso body rbF now
      = { result := ScopeResult.commitOnClosed (body (applyIso c iso).1).1.connId
          conn_after := some (body (applyIso c iso).1).1
          pool_after := s
          committed := false
          rollbackAttempted := false
          rollbackReported := false
          closeallCalled := false
          putCalled := false } := by
  simp only [connectionScope, hClean, hClosed]
  simp

theorem connectionScope_error_closed {ε : Type} (s : PoolState) (c : Conn) (iso : Option Int)
    (body : Conn → Conn × Option ε) (rbF : Bool) (now : Int) (e : ε)
    (hErr : (body (applyIso c iso).1).2 = some e)
    (hClosed : (body (applyIso c iso).1).1.closed = true) :
    connectionScope s c iso body rbF now
      = { result := ScopeResult.bodyError e
          conn_after := none
          pool_after := closeall s
          committed := false
          rollbackAttempted := false
          rollbackReported := false
          closeallCalled := true
          putCalled := false } := by
  simp only [connectionScope, hErr, hClosed]
  simp

theorem connectionScope_error_open {ε : Type} (s : PoolState) (c : Conn) (iso : Option Int)
    (body : Conn → Conn × Option ε) (rbF : Bool) (now : Int) (e : ε)
    (hErr : (body (applyIso c iso).1).2 = some e)
    (hOpen : (body (applyIso c iso).1).1.closed = false) :
    connectionScope s c iso body rbF now
      = (if rbF then
          { result := ScopeResult.bodyError e
            conn_after := none
            pool_after := s
            committed := false
            rollbackAttempted := true
            rollbackReported := true
            closeallCalled := false
            putCalled := false }
        else
          { result := ScopeResult.bodyError e
            conn_after := some (restoreIso (body (applyIso c iso).1).1 (applyIso c iso).2)
            pool_after :=
              put s (restoreIso (body (applyIso c iso).1).1 (applyIso c iso).2).connId now
            committed := false
            rollbackAttempted := true
            rollbackReported := false
            closeallCalled := false
            putCalled := true }) := by
  simp only [connectionScope, hErr, hOpen]
  simp

/-- A freshly created open connection at isolation level 0, as `get` could
hand it out. -/
def isoConn : Conn :=
  { connId := 5, closed := false, isolation_level := 0 }

/-- C6 counterexample (the claim as stated is false): requesting isolation
level 1 on a connection whose prior level is 0, with a clean body and an open
transport, returns the connection via `put` still at level 1; the prior
level 0 is never restored, because the `finally` clause re-applies the
requested level (the code never saved the prior one). -/
theorem C6_restore_counterexample :
    isoConn.isolation_level = 0
    ∧ (connectionScope (PoolState.init 5 1 none none) isoConn (some 1)
        (fun c => (c, (none : Option Nat))) false 50).putCalled = true
    ∧ (connectionScope (PoolState.init 5 1 none none) isoConn (some 1)
        (fun c => (c, (none : Option Nat))) false 50).conn_after
        = some { connId := 5, closed := false, isolation_level := 1 }
    ∧ ¬ (connectionScope (PoolState.init 5 1 none none) isoConn (some 1)
        (fun c => (c, (none : Option Nat))) false 50).conn_after = some isoConn := by
  decide

/-- C6 (amended): for every scope requesting a non-`None` isolation level
different from the connection's current one, the requested level is set on
the connection before the body sees it, and on clean exit with an open
transport the scope re-applies the requested level in `finally` — leaving
the connection at the requested level, not its prior one — before returning
it via `put`. -/
theorem C6_isolation_amended {ε : Type} (s : PoolState) (c : Conn) (lvl : Int)
    (body : Conn → Conn × Option ε) (rbF : Bool) (now : Int)
    (hNe : ¬ c.isolation_level = lvl)
    (hClean : (body (applyIso c (some lvl)).1).2 = none)
    (hOpen : (body (applyIso c (some lvl)).1).1.closed = false) :
    (applyIso c (some lvl)).1.isolation_level = lvl
    ∧ (connectionScope s c (some lvl) body rbF now).putCalled = true
    ∧ (connectionScope s c (some lvl) body rbF now).conn_after
        = some (restoreIso (body (applyIso c (some lvl)).1).1 (some lvl))
    ∧ (restoreIso (body (applyIso c (some lvl)).1).1 (some lvl)).isolation_level = lvl
    ∧ (connectionScope s c (some lvl) body rbF now).pool_after
        = put s (restoreIso (body (applyIso c (some lvl)).1).1 (some lvl)).connId now := by
  have ha : (applyIso c (some lvl)).2 = some lvl := by
    simp [applyIso, hNe]
  rw [connectionScope_clean_open s c (some lvl) body rbF now hClean hOpen, ha]
  refine ⟨?_, rfl, rfl, rfl, rfl⟩
  simp [applyIso, hNe]

/-- Witness for the amended C6 at concrete inputs: level 0 connection,
requested level 1, identity body. -/
theorem C6_isolation_amended_witness :
    (¬ isoConn.isolation_level = 1
      ∧ ((fun c => (c, (none : Option Nat))) (applyIso isoConn (some 1)).1).2 = none
      ∧ ((fun c => (c, (none : Option Nat))) (applyIso isoConn (some 1)).1).1.closed = false)
    ∧ (applyIso isoConn (some 1)).1.isolation_level = 1
    ∧ (connectionScope (PoolState.init 5 1 none none) isoConn (some 1)
        (fun c => (c, (none : Option Nat))) false 50).putCalled = true
    ∧ (restoreIso ((fun c => (c, (none : Option Nat))) (applyIso isoConn (some 1)).1).1
        (some 1)).isolation_level = 1 :=
  ⟨⟨by decide, by decide, by decide⟩,
    (C6_isolation_amended (PoolState.init 5 1 none none) isoConn 1
      (fun c => (c, (none : Option Nat))) false 50 (by decide) (by decide) (by decide)).1,
    (C6_isolation_amended (PoolState.init 5 1 none none) isoConn 1
      (fun c => (c, (none : Option Nat))) false 50 (by decide) (by decide) (by decide)).2.1,
    (C6_isolation_amended (PoolState.init 5 1 none none) isoConn 1
      (fun c => (c, (none : Option Nat))) false 50 (by decide) (by decide) (by decide)).2.2.2.1⟩

/-- A pool holding the single idle connection 3 with recorded timestamps. -/
def onePool : PoolState :=
  { maxsize := 5
    maxwait := 1
    expires := none
    cleanup := none
    created_at := [(3, 50)]
    latest_use := [(3, 60)]
    pool := [3]
    size := 1
    latest_cleanup := 0xffffffffffffffff
    interval_cleanup := 0 }

/-- C7 counterexample (the claim as stated is false): `closeall` permanently
closes free-list connection 3 (the free list is emptied and `size` reset to
0), yet connection 3's `created_at` and `latest_use` entries survive — the
bookkeeping is not purged together with the removal. -/
theorem C7_purge_counterexample :
    (closeall onePool).pool = []
    ∧ (closeall onePool).size = 0
    ∧ lookupTS (closeall onePool).created_at 3 = some 50
    ∧ lookupTS (closeall onePool).latest_use 3 = some 60 := by
  decide

/-- C7 (amended): `close_connection` — and therefore every cleanup eviction,
which closes through it — decrements `size` and purges the connection's
`created_at` and `latest_use` entries, and these bookkeeping updates happen
even when closing the transport fails (they precede the close, whose failure
is swallowed), so a failing close never leaks capacity; `closeall` empties
the free list and resets `size` to 0 (also independently of close failures)
but leaves the timestamp maps untouched. -/
theorem C7_close_bookkeeping (s : PoolState) (c : Nat) :
    (close_connection s c).size = s.size - 1
    ∧ lookupTS (close_connection s c).created_at c = none
    ∧ lookupTS (close_connection s c).latest_use c = none
    ∧ (close_connection s c).pool = s.pool
    ∧ (closeall s).size = 0
    ∧ (closeall s).pool = []
    ∧ (closeall s).created_at = s.created_at
    ∧ (closeall s).latest_use = s.latest_use :=
  ⟨rfl, lookupTS_eraseKey_self s.created_at c, lookupTS_eraseKey_self s.latest_use c,
    rfl, rfl, rfl, rfl, rfl⟩

/-- C8: on exceptional exit from a `connection` scope: with a closed
transport, the connection is discarded (`conn` set to `None`, never `put`),
`closeall` runs on the whole pool, and the body's failure is re-raised
unmodified; with an open transport, rollback is attempted, and a failing
rollback is reported through `handle_error` while the body's original
failure is still the one propagated. -/
theorem C8_exceptional_exit {ε : Type} (s : PoolState) (c : Conn) (iso : Option Int)
    (body : Conn → Conn × Option ε) (rbF : Bool) (now : Int) (e : ε)
    (hErr : (body (applyIso c iso).1).2 = some e) :
    ((body (applyIso c iso).1).1.closed = true →
      (connectionScope s c iso body rbF now).result = ScopeResult.bodyError e
      ∧ (connectionScope s c iso body rbF now).pool_after = closeall s
      ∧ (connectionScope s c iso body rbF now).closeallCalled = true
      ∧ (connectionScope s c iso body rbF now).conn_after = none
      ∧ (connectionScope s c iso body rbF now).putCalled = false)
    ∧ ((body (applyIso c iso).1).1.closed = false →
      (connectionScope s c iso body rbF now).rollbackAttempted = true
      ∧ (rbF = true →
          (connectionScope s c iso body rbF now).rollbackReported = true
          ∧ (connectionScope s c iso body rbF now).result = ScopeResult.bodyError e
          ∧ (connectionScope s c iso body rbF now).putCalled = false)
      ∧ (rbF = false →
          (connectionScope s c iso body rbF now).result = ScopeResult.bodyError e
          ∧ (connectionScope s c iso body rbF now).rollbackReported = false)) := by
  constructor
  · intro hClosed
    rw [connectionScope_error_closed s c iso body rbF now e hErr hClosed]
    exact ⟨rfl, rfl, rfl, rfl, rfl⟩
  · intro hOpen
    rw [connectionScope_error_open s c iso body rbF now e hErr hOpen]
    cases rbF with
    | true =>
      rw [if_pos rfl]
      refine ⟨rfl, ?_, ?_⟩
      · intro _
        exact ⟨rfl, rfl, rfl⟩
      · intro h
        cases h
    | false =>
      rw [if_neg (by decide)]
      refine ⟨rfl, ?_, ?_⟩
      · intro h
        cases h
      · intro _
        exact ⟨rfl, rfl⟩

/-- Witness for C8: a body that raises error 9 after closing the transport,
and one that raises with the transport open while rollback fails. -/
theorem C8_exceptional_exit_witness :
    (((fun (c : Conn) => ({ c with closed := true }, (some 9 : Option Nat)))
        (applyIso isoConn none).1).2 = some 9
      ∧ ((fun (c : Conn) => ({ c with closed := true }, (some 9 : Option Nat)))
        (applyIso isoConn none).1).1.closed = true
      ∧ ((fun c => (c, (some 9 : Option Nat))) (applyIso isoConn none).1).2 = some 9
      ∧ ((fun c => (c, (some 9 : Option Nat))) (applyIso isoConn none).1).1.closed = false)
    ∧ (connectionScope onePool isoConn none
        (fun (c : Conn) => ({ c with closed := true }, (some 9 : Option Nat))) false 50).pool_after
        = closeall onePool
    ∧ (connectionScope onePool isoConn none
        (fun c => (c, (some 9 : Option Nat))) true 50).rollbackReported = true
    ∧ (connectionScope onePool isoConn none
        (fun c => (c, (some 9 : Option Nat))) true 50).result = ScopeResult.bodyError 9 :=
  ⟨⟨by decide, by decide, by decide, by decide⟩,
    ((C8_exceptional_exit onePool isoConn none
        (fun (c : Conn) => ({ c with closed := true }, (some 9 : Option Nat))) false 50 9
        (by decide)).1 (by decide)).2.1,
    (((C8_exceptional_exit onePool isoConn none
        (fun c => (c, (some 9 : Option Nat))) true 50 9
        (by decide)).2 (by decide)).2.1 rfl).1,
    (((C8_exceptional_exit onePool isoConn none
        (fun c => (c, (some 9 : Option Nat))) true 50 9
        (by decide)).2 (by decide)).2.1 rfl).2.1⟩

/-- C9: on normal exit from a `connection` scope whose transport reports
closed, the scope raises the commit-on-closed error, does not commit, and
does not return the connection via `put`; with an open transport it commits
and returns the connection via `put`. -/
theorem C9_commit_paths {ε : Type} (s : PoolState) (c : Conn) (iso : Option Int)
    (body : Conn → Conn × Option ε) (rbF : Bool) (now : Int)
    (hClean : (body (applyIso c iso).1).2 = none) :
    ((body (applyIso c iso).1).1.closed = true →
      (connectionScope s c iso body rbF now).result
          = ScopeResult.commitOnClosed (body (applyIso c iso).1).1.connId
      ∧ (connectionScope s c iso body rbF now).committed = false
      ∧ (connectionScope s c iso body rbF now).putCalled = false)
    ∧ ((body (applyIso c iso).1).1.closed = false →
      (connectionScope s c iso body rbF now).result = ScopeResult.ok
      ∧ (connectionScope s c iso body rbF now).committed = true
      ∧ (connectionScope s c iso body rbF now).putCalled = true
      ∧ (connectionScope s c iso body rbF now).pool_after
          = put s (restoreIso (body (applyIso c iso).1).1 (applyIso c iso).2).connId now) := by
  constructor
  · intro hClosed
    rw [connectionScope_clean_closed s c iso body rbF now hClean hClosed]
    exact ⟨rfl, rfl, rfl⟩
  · intro hOpen
    rw [connectionScope_clean_open s c iso body rbF now hClean hOpen]
    exact ⟨rfl, rfl, rfl, rfl⟩

/-- Witness for C9: a clean body that closes the transport (commit refused,
no `put`), and a clean body that leaves it open (commit, `put`). -/
theorem C9_commit_paths_witness :
    (((fun (c : Conn) => ({ c with closed := true }, (none : Option Nat)))
        (applyIso isoConn none).1).2 = none
      ∧ ((fun (c : Conn) => ({ c with closed := true }, (none : Option Nat)))
        (applyIso isoConn none).1).1.closed = true
      ∧ ((fun c => (c, (none : Option Nat))) (applyIso isoConn none).1).2 = none
      ∧ ((fun c => (c, (none : Option Nat))) (applyIso isoConn none).1).1.closed = false)
    ∧ (connectionScope onePool isoConn none
        (fun (c : Conn) => ({ c with closed := true }, (none : Option Nat))) false 50).committed = false
    ∧ (connectionScope onePool isoConn none
        (fun (c : Conn) => ({ c with closed := true }, (none : Option Nat))) false 50).putCalled = false
    ∧ (connectionScope onePool isoConn none
        (fun c => (c, (none : Option Nat))) false 50).committed = true
    ∧ (connectionScope onePool isoConn none
        (fun c => (c, (none : Option Nat))) false 50).putCalled = true :=
  ⟨⟨by decide, by decide, by decide, by decide⟩,
    ((C9_commit_paths onePool isoConn none
        (fun (c : Conn) => ({ c with closed := true }, (none : Option Nat))) false 50
        (by decide)).1 (by decide)).2.1,
    ((C9_commit_paths onePool isoConn none
        (fun (c : Conn) => ({ c with closed := true }, (none : Option Nat))) false 50
        (by decide)).1 (by decide)).2.2,
    ((C9_commit_paths onePool isoConn none
        (fun c => (c, (none : Option Nat))) false 50 (by decide)).2 (by decide)).2.1,
    ((C9_commit_paths onePool isoConn none
        (fun c => (c, (none : Option Nat))) false 50 (by decide)).2 (by decide)).2.2.1⟩

/-- C10 (implicit frame): on the commit-on-closed path (clean body, transport
closed) the scope leaves the pool state exactly as it was — `size` not
decremented, free list untouched, timestamp maps unchanged — so the closed
connection's capacity slot stays consumed; only a later `closeall` resets
`size` to 0. -/
theorem C10_commit_closed_frame {ε : Type} (s : PoolState) (c : Conn) (iso : Option Int)
    (body : Conn → Conn × Option ε) (rbF : Bool) (now : Int)
    (hClean : (body (applyIso c iso).1).2 = none)
    (hClosed : (body (applyIso c iso).1).1.closed = true) :
    (connectionScope s c iso body rbF now).pool_after = s
    ∧ (connectionScope s c iso body rbF now).pool_after.size = s.size
    ∧ (connectionScope s c iso body rbF now).pool_after.pool = s.pool
    ∧ (connectionScope s c iso body rbF now).pool_after.created_at = s.created_at
    ∧ (connectionScope s c iso body rbF now).pool_after.latest_use = s.latest_use
    ∧ (closeall (connectionScope s c iso body rbF now).pool_after).size = 0 := by
  rw [connectionScope_clean_closed s c iso body rbF now hClean hClosed]
  exact ⟨rfl, rfl, rfl, rfl, rfl, rfl⟩

/-- Witness for C10: the commit-on-closed path on `onePool` leaves the pool
record untouched, and `closeall` afterwards zeroes `size`. -/
theorem C10_commit_closed_frame_witness :
    (((fun (c : Conn) => ({ c with closed := true }, (none : Option Nat)))
        (applyIso isoConn none).1).2 = none
      ∧ ((fun (c : Conn) => ({ c with closed := true }, (none : Option Nat)))
        (applyIso isoConn none).1).1.closed = true)
    ∧ (connectionScope onePool isoConn none
        (fun (c : Conn) => ({ c with closed := true }, (none : Option Nat))) false 50).pool_after
        = onePool
    ∧ (closeall (connectionScope onePool isoConn none
        (fun (c : Conn) => ({ c with closed := true }, (none : Option Nat))) false 50).pool_after).size
        = 0 :=
  ⟨⟨by decide, by decide⟩,
    (C10_commit_closed_frame onePool isoConn none
      (fun (c : Conn) => ({ c with closed := true }, (none : Option Nat))) false 50
      (by decide) (by decide)).1,
    (C10_commit_closed_frame onePool isoConn none
      (fun (c : Conn) => ({ c with closed := true }, (none : Option Nat))) false 50
      (by decide) (by decide)).2.2.2.2.2⟩

end PgPool
